import Mathlib

/-!
Verification of the three-stage expression compiler (lexer, precedence-climbing
parser, ARM64 code generator).  The definitions below are a shallow embedding of
the Rust sources: `src/scan.rs`, `src/ast.rs`, `src/assembly.rs` and
`src/assembly/assembly_writer_arm64.rs`.  Rust `Result<T, E>` becomes
`Except E T`, the token iterator becomes an explicit `List`, the `BufWriter`
output sink becomes a list of written lines plus a `flushed` flag, and a Rust
panic (`expect`/`unwrap` failure) is modelled by the `CodegenError.panic`
variant so that crashing and returning an error stay distinguishable.
-/

/-- Token vocabulary (`scan.rs` plus the end-of-input variants that `ast.rs`
matches on).  Machine integers are modelled as unbounded `Int`; the lexer
enforces the 32-bit bound where the Rust `parse::<i32>` does. -/
inductive Token where
  | PLUS
  | MINUS
  | ASTERISK
  | SLASH
  | INT (value : Int)
  | EndOfLine
  | EndOfFile
deriving DecidableEq

/-- Lexical error record from `scan.rs`: position and offending character. -/
structure TokenError where
  line : Nat
  column : Nat
  character : Char
deriving DecidableEq

/-- Value of a digit string, as accumulated by `number.parse::<i32>()`.
The scanned string is all ASCII digits, so the value is a `Nat`. -/
def digits_value (s : List Char) : Nat :=
  s.foldl (fun a c => 10 * a + (c.toNat - 48)) 0

/-- One step of the lexer (`scan_token` in `scan.rs`).  `chars` is the rest of
the enumerated line (column, character); the function returns the token result
together with the characters left unconsumed.  A digit opens a maximal-munch
integer literal; a value not representable as an `i32` (greater than
`2147483647`; the scanned string is unsigned) models the `parse::<i32>` failure
and produces the `TokenError` at the literal's starting position. -/
def scan_token (current_char : Char) (chars : List (Nat × Char)) (line : Nat) (column : Nat) :
    Except TokenError Token × List (Nat × Char) :=
  if current_char = '+' then (.ok .PLUS, chars)
  else if current_char = '-' then (.ok .MINUS, chars)
  else if current_char = '*' then (.ok .ASTERISK, chars)
  else if current_char = '/' then (.ok .SLASH, chars)
  else if current_char.isDigit then
    let number := current_char :: (chars.takeWhile (fun p => p.2.isDigit)).map (fun p => p.2)
    let rest := chars.dropWhile (fun p => p.2.isDigit)
    if digits_value number ≤ 2147483647 then
      (.ok (.INT (digits_value number)), rest)
    else
      (.error ⟨line, column, current_char⟩, rest)
  else
    (.error ⟨line, column, current_char⟩, chars)

/-- The character loop of `scan_line` in `scan.rs`: whitespace is skipped, any
other character is handed to `scan_token`, and scanning continues on whatever
`scan_token` left unconsumed.  The `fuel` argument makes the recursion
structural; since every iteration consumes at least the head character
(`scan_token_remainder_le`), the fuel supplied by `scan_line` can never run
out. -/
def scan_line_loop (fuel : Nat) (line_num : Nat) :
    List (Nat × Char) → List (Except TokenError Token)
  | [] => []
  | (column, ch) :: rest =>
    match fuel with
    | 0 => []
    | fuel + 1 =>
      if ch.isWhitespace then scan_line_loop fuel line_num rest
      else
        (scan_token ch rest line_num column).1 ::
          scan_line_loop fuel line_num (scan_token ch rest line_num column).2

/-- `scan_line` from `scan.rs`: enumerate the characters of the line with their
zero-based columns and run the scanning loop. -/
def scan_line (line : String) (line_num : Nat) : List (Except TokenError Token) :=
  scan_line_loop (line.toList.length + 1) line_num line.toList.enum

/-- AST node from `ast.rs`: an operation token and two optional owned
children. -/
inductive ASTNode where
  | mk (operation : Token) (left : Option ASTNode) (right : Option ASTNode)

/-- Operation token of a node. -/
def ASTNode.operation : ASTNode → Token
  | .mk op _ _ => op

/-- Left child of a node. -/
def ASTNode.left : ASTNode → Option ASTNode
  | .mk _ l _ => l

/-- Right child of a node. -/
def ASTNode.right : ASTNode → Option ASTNode
  | .mk _ _ r => r

mutual

/-- Decidable structural equality for `ASTNode` (the derive handler does not
support this nested inductive). -/
def ASTNode.deq : (a b : ASTNode) → Decidable (a = b)
  | .mk op1 l1 r1, .mk op2 l2 r2 =>
    match decEq op1 op2 with
    | isFalse h => isFalse (by intro hh; cases hh; exact h rfl)
    | isTrue h1 =>
      match ASTNode.deqOpt l1 l2 with
      | isFalse h => isFalse (by intro hh; cases hh; exact h rfl)
      | isTrue h2 =>
        match ASTNode.deqOpt r1 r2 with
        | isFalse h => isFalse (by intro hh; cases hh; exact h rfl)
        | isTrue h3 => isTrue (by rw [h1, h2, h3])

/-- Decidable equality for optional children. -/
def ASTNode.deqOpt : (a b : Option ASTNode) → Decidable (a = b)
  | none, none => isTrue rfl
  | some x, some y =>
    match ASTNode.deq x y with
    | isTrue h => isTrue (by rw [h])
    | isFalse h => isFalse (by simp only [Option.some.injEq]; exact h)
  | none, some _ => isFalse (by simp)
  | some _, none => isFalse (by simp)

end

instance : DecidableEq ASTNode := ASTNode.deq

instance {ε α : Type} [DecidableEq ε] [DecidableEq α] : DecidableEq (Except ε α)
  | .ok a, .ok b =>
    match decEq a b with
    | isTrue h => isTrue (by rw [h])
    | isFalse h => isFalse (by simp only [Except.ok.injEq]; exact h)
  | .error a, .error b =>
    match decEq a b with
    | isTrue h => isTrue (by rw [h])
    | isFalse h => isFalse (by simp only [Except.error.injEq]; exact h)
  | .ok _, .error _ => isFalse (by simp)
  | .error _, .ok _ => isFalse (by simp)

/-- Result of the lexer for one token, as consumed by the parser. -/
abbrev TokRes := Except TokenError Token

/-- Parsing error taxonomy from `ast.rs`. -/
inductive ASTError where
  | UnexpectedToken (t : Token)
  | LexicalError (e : TokenError)
  | ExpectedOperator
  | ExpectedInteger
  | EmptyExpression
  | InvalidLeafNode
deriving DecidableEq

/-- Operator precedence (`ASTNode::get_precedence`): `+`/`-` bind with 1,
`*`/`/` with 2, end-of-input tokens are an `ExpectedOperator` error, and every
other token (an `INT`) falls to the wildcard arm with precedence 0. -/
def ASTNode.get_precedence : Token → Except ASTError Nat
  | .PLUS | .MINUS => .ok 1
  | .ASTERISK | .SLASH => .ok 2
  | .EndOfLine | .EndOfFile => .error .ExpectedOperator
  | _ => .ok 0

/-- Leaf construction (`ASTNode::make_leaf`): only an `INT` token may be a
leaf. -/
def ASTNode.make_leaf : Token → Except ASTError ASTNode
  | .INT n => .ok (.mk (.INT n) none none)
  | _ => .error .InvalidLeafNode

/-- Internal-node construction (`ASTNode::new`): both children are always
present; a lexical-error operand surfaces as `LexicalError`. -/
def ASTNode.new (operation : Except TokenError Token) (left right : ASTNode) :
    Except ASTError ASTNode :=
  match operation with
  | .ok op => .ok (.mk op (some left) (some right))
  | .error e => .error (.LexicalError e)

/-- `ASTNode::parse_primary`: the next token must be an integer literal; the
token is consumed. -/
def ASTNode.parse_primary : List TokRes → Except ASTError (ASTNode × List TokRes)
  | .ok (.INT n) :: rest => (ASTNode.make_leaf (.INT n)).map (fun l => (l, rest))
  | .ok t :: _ => .error (.UnexpectedToken t)
  | .error e :: _ => .error (.LexicalError e)
  | [] => .error .EmptyExpression

/-- The check after the climbing loop of `parse_one_line_expression`: a
lexical-error token left in the lookahead is surfaced, anything else returns
the accumulated left operand with the stream untouched. -/
def ASTNode.after_loop (left : ASTNode) (tokens : List TokRes) :
    Except ASTError (ASTNode × List TokRes) :=
  match tokens with
  | .error e :: _ => .error (.LexicalError e)
  | _ => .ok (left, tokens)

mutual

/-- `ASTNode::parse_one_line_expression`: parse a primary, then climb.  The
`fuel` argument bounds the recursion depth of the shallow embedding; the
entry point `ASTNode.parse` supplies more fuel than the token list can ever
demand (each nested call consumes at least one token first). -/
def ASTNode.parse_one_line_expression (fuel : Nat) (tokens : List TokRes)
    (min_precedence : Nat) : Except ASTError (ASTNode × List TokRes) :=
  match fuel with
  | 0 => .error .EmptyExpression
  | fuel + 1 =>
    match ASTNode.parse_primary tokens with
    | .error e => .error e
    | .ok (left, rest) => ASTNode.climb fuel left rest min_precedence

/-- The `while let Some(Ok(op)) = tokens.peek()` loop of
`parse_one_line_expression`: while the lookahead is an `Ok` token whose
precedence is defined and at least `min_precedence`, consume it, parse the
right-hand side with `precedence + 1`, and fold the result into the left
operand.  Every exit of the loop goes through `ASTNode.after_loop`, the
post-loop lexical-error check. -/
def ASTNode.climb (fuel : Nat) (left : ASTNode) (tokens : List TokRes)
    (min_precedence : Nat) : Except ASTError (ASTNode × List TokRes) :=
  match fuel with
  | 0 => .error .EmptyExpression
  | fuel + 1 =>
    match tokens with
    | .ok op :: rest =>
      match ASTNode.get_precedence op with
      | .error _ => ASTNode.after_loop left tokens
      | .ok precedence =>
        if precedence < min_precedence then ASTNode.after_loop left tokens
        else
          match ASTNode.parse_one_line_expression fuel rest (precedence + 1) with
          | .error e => .error e
          | .ok (right, rest2) =>
            match ASTNode.new (.ok op) left right with
            | .error e => .error e
            | .ok node => ASTNode.climb fuel node rest2 min_precedence
    | _ => ASTNode.after_loop left tokens

end

/-- `ASTNode::parse`: an empty token sequence is rejected up front, otherwise
the expression parser runs with `min_precedence = 0` and the unconsumed tail
of the stream is discarded. -/
def ASTNode.parse (tokens : List TokRes) : Except ASTError ASTNode :=
  if tokens.isEmpty then .error .EmptyExpression
  else
    match ASTNode.parse_one_line_expression (tokens.length + 1) tokens 0 with
    | .error e => .error e
    | .ok (node, _) => .ok node

/-- `ASTNode::test_evaluate`: the repository's own test-only evaluator.  An
`INT` node yields its value ignoring any children; operator nodes require both
children; division by zero reports `ExpectedInteger`. -/
def ASTNode.test_evaluate : ASTNode → Except ASTError Int
  | .mk (.INT n) _ _ => .ok n
  | .mk .PLUS (some l) (some r) =>
    match l.test_evaluate, r.test_evaluate with
    | .ok a, .ok b => .ok (a + b)
    | .error e, _ => .error e
    | _, .error e => .error e
  | .mk .MINUS (some l) (some r) =>
    match l.test_evaluate, r.test_evaluate with
    | .ok a, .ok b => .ok (a - b)
    | .error e, _ => .error e
    | _, .error e => .error e
  | .mk .ASTERISK (some l) (some r) =>
    match l.test_evaluate, r.test_evaluate with
    | .ok a, .ok b => .ok (a * b)
    | .error e, _ => .error e
    | _, .error e => .error e
  | .mk .SLASH (some l) (some r) =>
    match l.test_evaluate, r.test_evaluate with
    | .ok a, .ok b => if b = 0 then .error .ExpectedInteger else .ok (a / b)
    | .error e, _ => .error e
    | _, .error e => .error e
  | .mk .PLUS _ _ => .error .ExpectedInteger
  | .mk .MINUS _ _ => .error .ExpectedInteger
  | .mk .ASTERISK _ _ => .error .ExpectedInteger
  | .mk .SLASH _ _ => .error .ExpectedInteger
  | .mk .EndOfFile _ _ => .error (.UnexpectedToken .EndOfFile)
  | .mk .EndOfLine _ _ => .error (.UnexpectedToken .EndOfLine)

/-- Is the token one of the four binary operators? -/
def is_bin_op : Token → Bool
  | .PLUS | .MINUS | .ASTERISK | .SLASH => true
  | _ => false

/-- Is the token an integer literal? -/
def is_int_tok : Token → Bool
  | .INT _ => true
  | _ => false

/-- The two structural invariants of the data model, checked on every node of a
tree: a node with both children absent carries an `INT` operation, and a node
whose operation is one of the four binary operators has both children
present. -/
def ASTNode.invariant : ASTNode → Bool
  | .mk op none none => is_int_tok op
  | .mk op (some l) none => !is_bin_op op && l.invariant
  | .mk op none (some r) => !is_bin_op op && r.invariant
  | .mk _ (some l) (some r) => l.invariant && r.invariant

/-- Register enumeration from `assembly.rs`. -/
inductive RegisterList where
  | R0
  | R1
  | R2
  | R3
  | R4
deriving DecidableEq

/-- Failure modes of the code generator.  `ioError` models a returned
`Err(std::io::Error)` (the `Unsupported or invalid operation` arm);
`panic` models a Rust panic (`expect`/`unwrap` failure), which aborts the
process rather than returning an error to the caller. -/
inductive CodegenError where
  | ioError (msg : String)
  | panic (msg : String)
deriving DecidableEq

/-- State of `ARM64Writer`: the pool of available registers (in the order of
the Rust `Vec`, which is used as a stack pushed and popped at the back), the
lines written to the buffered output sink, and whether the sink has been
flushed since the last write. -/
structure ARM64Writer where
  available_registers : List RegisterList
  out : List String
  flushed : Bool
deriving DecidableEq

/-- `ARM64Writer::new`: the pool starts as `vec![R4, R3, R2, R1, R0]` (so the
back of the `Vec`, popped first, is `R0`), with nothing written yet. -/
def ARM64Writer.new : ARM64Writer :=
  { available_registers := [.R4, .R3, .R2, .R1, .R0], out := [], flushed := true }

/-- One `writeln!` on the buffered sink: append the line, leaving the buffer
unflushed. -/
def ARM64Writer.writeln (s : ARM64Writer) (line : String) : ARM64Writer :=
  { available_registers := s.available_registers, out := s.out ++ [line], flushed := false }

/-- `flush()` on the buffered sink. -/
def ARM64Writer.flush (s : ARM64Writer) : ARM64Writer :=
  { s with flushed := true }

/-- `Vec::pop`: remove and return the last element, if any. -/
def vec_pop {α : Type} (l : List α) : Option (α × List α) :=
  match l.getLast? with
  | none => none
  | some a => some (a, l.dropLast)

/-- `ARM64Writer::format_register`: the fixed register-name table. -/
def ARM64Writer.format_register : RegisterList → String
  | .R0 => "x0"
  | .R1 => "x1"
  | .R2 => "x2"
  | .R3 => "x3"
  | .R4 => "x4"

/-- `ARM64Writer::allocate_register`: `self.available_registers.pop().expect("No
available registers")` — popping an empty pool is a panic, not a returned
error. -/
def ARM64Writer.allocate_register (s : ARM64Writer) :
    Except CodegenError (RegisterList × ARM64Writer) :=
  match vec_pop s.available_registers with
  | none => .error (.panic ("No available registers"))
  | some (r, rest) => .ok (r, { s with available_registers := rest })

/-- `ARM64Writer::free_register`: push the register back onto the pool. -/
def ARM64Writer.free_register (s : ARM64Writer) (register : RegisterList) : ARM64Writer :=
  { s with available_registers := s.available_registers ++ [register] }

/-- `ARM64Writer::free_all_registers`: reset the pool to `vec![R0, R1, R2, R3,
R4]` (note the order differs from `new`, so the back of this `Vec` is `R4`). -/
def ARM64Writer.free_all_registers (s : ARM64Writer) : ARM64Writer :=
  { s with available_registers := [.R0, .R1, .R2, .R3, .R4] }

/-- The text of a load-immediate instruction, `"\tmov {0}, #{1}\t// {0}={1}"`. -/
def mov_line (reg : String) (value : Int) : String :=
  "\tmov " ++ reg ++ ", #" ++ toString value ++ "\t// " ++ reg ++ "=" ++ toString value

/-- `ARM64Writer::load_register`: allocate a register and emit the
load-immediate line for it. -/
def ARM64Writer.load_register (s : ARM64Writer) (value : Int) :
    Except CodegenError (RegisterList × ARM64Writer) :=
  match s.allocate_register with
  | .error e => .error e
  | .ok (register, s1) =>
    .ok (register, s1.writeln (mov_line (ARM64Writer.format_register register) value))

/-- The four lines written by `ARM64Writer::print_register`, verbatim.  The
`register` argument is not formatted into any of them. -/
def print_lines : List String :=
  ["    // Print register value",
   "    mov x0, #1           // stdout",
   "    mov x16, #4          // write syscall",
   "    svc #0x80"]

/-- `ARM64Writer::print_register`: write the fixed print block and hand the
register back unchanged. -/
def ARM64Writer.print_register (s : ARM64Writer) (register : RegisterList) :
    Except CodegenError (RegisterList × ARM64Writer) :=
  .ok (register, print_lines.foldl ARM64Writer.writeln s)

/-- The text of a three-operand ALU instruction, `"    {mn} {d}, {s1}, {s2}"`. -/
def alu_line (mnemonic dest src1 src2 : String) : String :=
  "    " ++ mnemonic ++ " " ++ dest ++ ", " ++ src1 ++ ", " ++ src2

/-- `ARM64Writer::add_registers`: allocate a destination, emit `add`, free both
operand registers. -/
def ARM64Writer.add_registers (s : ARM64Writer) (reg_1 reg_2 : RegisterList) :
    Except CodegenError (RegisterList × ARM64Writer) :=
  match s.allocate_register with
  | .error e => .error e
  | .ok (result_reg, s1) =>
    let s2 := s1.writeln (alu_line ("add") (ARM64Writer.format_register result_reg)
      (ARM64Writer.format_register reg_1) (ARM64Writer.format_register reg_2))
    .ok (result_reg, (s2.free_register reg_1).free_register reg_2)

/-- `ARM64Writer::subtract_registers`. -/
def ARM64Writer.subtract_registers (s : ARM64Writer) (reg_1 reg_2 : RegisterList) :
    Except CodegenError (RegisterList × ARM64Writer) :=
  match s.allocate_register with
  | .error e => .error e
  | .ok (result_reg, s1) =>
    let s2 := s1.writeln (alu_line ("sub") (ARM64Writer.format_register result_reg)
      (ARM64Writer.format_register reg_1) (ARM64Writer.format_register reg_2))
    .ok (result_reg, (s2.free_register reg_1).free_register reg_2)

/-- `ARM64Writer::multiply_registers`. -/
def ARM64Writer.multiply_registers (s : ARM64Writer) (reg_1 reg_2 : RegisterList) :
    Except CodegenError (RegisterList × ARM64Writer) :=
  match s.allocate_register with
  | .error e => .error e
  | .ok (result_reg, s1) =>
    let s2 := s1.writeln (alu_line ("mul") (ARM64Writer.format_register result_reg)
      (ARM64Writer.format_register reg_1) (ARM64Writer.format_register reg_2))
    .ok (result_reg, (s2.free_register reg_1).free_register reg_2)

/-- `ARM64Writer::divide_registers` (unsigned divide). -/
def ARM64Writer.divide_registers (s : ARM64Writer) (reg_1 reg_2 : RegisterList) :
    Except CodegenError (RegisterList × ARM64Writer) :=
  match s.allocate_register with
  | .error e => .error e
  | .ok (result_reg, s1) =>
    let s2 := s1.writeln (alu_line ("udiv") (ARM64Writer.format_register result_reg)
      (ARM64Writer.format_register reg_1) (ARM64Writer.format_register reg_2))
    .ok (result_reg, (s2.free_register reg_1).free_register reg_2)

/-- The seven lines written by `ARM64Writer::write_assembly_headers`,
verbatim. -/
def header_lines : List String :=
  ["// Auto-generated ARM64 assembly",
   ".arch arm64",
   ".text",
   ".global _main",
   ".align 2",
   "",
   "_main:"]

/-- `ARM64Writer::write_assembly_headers`. -/
def ARM64Writer.write_assembly_headers (s : ARM64Writer) : ARM64Writer :=
  header_lines.foldl ARM64Writer.writeln s

/-- The five lines written by `ARM64Writer::write_exit_syscall`, verbatim. -/
def exit_lines : List String :=
  ["",
   "    // Exit program",
   "    mov x0, #0           // Exit status 0",
   "    mov x16, #1          // Exit syscall",
   "    svc #0x80            // Make system call"]

/-- `ARM64Writer::write_exit_syscall`. -/
def ARM64Writer.write_exit_syscall (s : ARM64Writer) : ARM64Writer :=
  exit_lines.foldl ARM64Writer.writeln s

/-- `WriteAssembly::generate_assembly_from_ast` (default trait method in
`assembly.rs`): post-order walk.  An `INT` operation loads its value without
looking at the children; an operator node generates the left subtree, then the
right, then combines them; a missing child is an `expect` panic (for a missing
right child, the left subtree has already been generated when the panic
fires); an end-of-input token in a tree is the returned `io::Error`. -/
def ARM64Writer.generate_assembly_from_ast (s : ARM64Writer) :
    ASTNode → Except CodegenError (RegisterList × ARM64Writer)
  | .mk (.INT n) _ _ => s.load_register n
  | .mk .PLUS none _ => .error (.panic ("Missing left operand"))
  | .mk .PLUS (some l) none =>
    match s.generate_assembly_from_ast l with
    | .error e => .error e
    | .ok _ => .error (.panic ("Missing right operand"))
  | .mk .PLUS (some l) (some r) =>
    match s.generate_assembly_from_ast l with
    | .error e => .error e
    | .ok (left_reg, s1) =>
      match s1.generate_assembly_from_ast r with
      | .error e => .error e
      | .ok (right_reg, s2) => s2.add_registers left_reg right_reg
  | .mk .MINUS none _ => .error (.panic ("Missing left operand"))
  | .mk .MINUS (some l) none =>
    match s.generate_assembly_from_ast l with
    | .error e => .error e
    | .ok _ => .error (.panic ("Missing right operand"))
  | .mk .MINUS (some l) (some r) =>
    match s.generate_assembly_from_ast l with
    | .error e => .error e
    | .ok (left_reg, s1) =>
      match s1.generate_assembly_from_ast r with
      | .error e => .error e
      | .ok (right_reg, s2) => s2.subtract_registers left_reg right_reg
  | .mk .ASTERISK none _ => .error (.panic ("Missing left operand"))
  | .mk .ASTERISK (some l) none =>
    match s.generate_assembly_from_ast l with
    | .error e => .error e
    | .ok _ => .error (.panic ("Missing right operand"))
  | .mk .ASTERISK (some l) (some r) =>
    match s.generate_assembly_from_ast l with
    | .error e => .error e
    | .ok (left_reg, s1) =>
      match s1.generate_assembly_from_ast r with
      | .error e => .error e
      | .ok (right_reg, s2) => s2.multiply_registers left_reg right_reg
  | .mk .SLASH none _ => .error (.panic ("Missing left operand"))
  | .mk .SLASH (some l) none =>
    match s.generate_assembly_from_ast l with
    | .error e => .error e
    | .ok _ => .error (.panic ("Missing right operand"))
  | .mk .SLASH (some l) (some r) =>
    match s.generate_assembly_from_ast l with
    | .error e => .error e
    | .ok (left_reg, s1) =>
      match s1.generate_assembly_from_ast r with
      | .error e => .error e
      | .ok (right_reg, s2) => s2.divide_registers left_reg right_reg
  | .mk .EndOfLine _ _ => .error (.ioError ("Unsupported or invalid operation"))
  | .mk .EndOfFile _ _ => .error (.ioError ("Unsupported or invalid operation"))

/-- `ARM64Writer::compile_ast`: headers, expression body, print block, free the
result register, then — as the Rust code actually does — a second call to
`write_assembly_headers` (not `write_exit_syscall`), and a flush. -/
def ARM64Writer.compile_ast (s : ARM64Writer) (ast : ASTNode) :
    Except CodegenError ARM64Writer :=
  match (s.write_assembly_headers).generate_assembly_from_ast ast with
  | .error e => .error e
  | .ok (result_reg, s1) =>
    match s1.print_register result_reg with
    | .error e => .error e
    | .ok (_, s2) =>
      .ok (((s2.free_register result_reg).write_assembly_headers).flush)

/-- Well-formed expression trees: `INT` leaves and binary-operator nodes with
two well-formed children. -/
def well_formed : ASTNode → Bool
  | .mk (.INT _) none none => true
  | .mk op (some l) (some r) => is_bin_op op && well_formed l && well_formed r
  | _ => false

/-- Does `needle` occur at the head of `hay`? -/
def starts_with : List Char → List Char → Bool
  | [], _ => true
  | _ :: _, [] => false
  | a :: as, b :: bs => a = b && starts_with as bs

/-- Does `needle` occur as a contiguous substring of `hay`? -/
def occurs_in (needle : List Char) : List Char → Bool
  | [] => needle.isEmpty
  | c :: cs => starts_with needle (c :: cs) || occurs_in needle cs

/-- Structural induction principle for the nested inductive `ASTNode`: to
prove `P` everywhere it suffices to prove it at each node given it for
whatever children are present. -/
def ASTNode.ind {P : ASTNode → Prop}
    (h : ∀ op l r, (∀ x, l = some x → P x) → (∀ x, r = some x → P x) → P (.mk op l r)) :
    ∀ t, P t
  | .mk op none none =>
    h op none none (fun _x hx => nomatch hx) (fun _x hx => nomatch hx)
  | .mk op (some l) none =>
    h op (some l) none (fun _x hx => (Option.some.inj hx) ▸ ASTNode.ind h l)
      (fun _x hx => nomatch hx)
  | .mk op none (some r) =>
    h op none (some r) (fun _x hx => nomatch hx)
      (fun _x hx => (Option.some.inj hx) ▸ ASTNode.ind h r)
  | .mk op (some l) (some r) =>
    h op (some l) (some r) (fun _x hx => (Option.some.inj hx) ▸ ASTNode.ind h l)
      (fun _x hx => (Option.some.inj hx) ▸ ASTNode.ind h r)

/-- The leaf tree `Int(n)` for a literal, used by several test expressions. -/
def int_leaf (n : Int) : ASTNode := .mk (.INT n) none none

/-- The tree for `1 + 2`. -/
def plus_1_2 : ASTNode := .mk .PLUS (some (int_leaf 1)) (some (int_leaf 2))

/-- The right-nested tree for `1 + (2 + (3 + (4 + 5)))`: five leaves are
simultaneously live while its innermost sum is generated, exceeding the
five-register pool. -/
def deep_right_tree : ASTNode :=
  .mk .PLUS (some (int_leaf 1))
    (some (.mk .PLUS (some (int_leaf 2))
      (some (.mk .PLUS (some (int_leaf 3))
        (some (.mk .PLUS (some (int_leaf 4)) (some (int_leaf 5))))))))

/-- The tree for `(5 + 3) * 2`. -/
def paren_tree : ASTNode :=
  .mk .ASTERISK (some (.mk .PLUS (some (int_leaf 5)) (some (int_leaf 3))))
    (some (int_leaf 2))

/-- Token stream for `10 - 3 - 2`. -/
def tokens_10_3_2 : List TokRes :=
  [.ok (.INT 10), .ok .MINUS, .ok (.INT 3), .ok .MINUS, .ok (.INT 2)]

/-- Dropping a prefix cannot lengthen a list. -/
theorem length_dropWhile_le {α : Type} (p : α → Bool) (l : List α) :
    (l.dropWhile p).length ≤ l.length := by
  induction l with
  | nil => simp [List.dropWhile]
  | cons a l ih =>
    simp only [List.dropWhile_cons]
    split
    · exact Nat.le_trans ih (Nat.le_succ _)
    · exact Nat.le_refl _

/-- The unconsumed remainder returned by `scan_token` is never longer than the
input: the lexer only ever drops characters, so the fuel chosen by `scan_line`
never runs out. -/
theorem scan_token_remainder_le (current_char : Char) (chars : List (Nat × Char))
    (line : Nat) (column : Nat) :
    (scan_token current_char chars line column).2.length ≤ chars.length := by
  unfold scan_token
  repeat' split
  all_goals dsimp only
  all_goals first
    | exact Nat.le_refl _
    | (split <;> (dsimp only; exact length_dropWhile_le _ _))

/-- The post-loop check returns the accumulated left operand unchanged
whenever it returns at all. -/
theorem after_loop_ok (left : ASTNode) (tokens : List TokRes) (node : ASTNode)
    (rest : List TokRes) (h : ASTNode.after_loop left tokens = .ok (node, rest)) :
    node = left := by
  unfold ASTNode.after_loop at h
  split at h
  · cases h
  · cases h
    rfl

/-- A successful `parse_primary` returns an `INT` leaf, which satisfies the
structural invariants. -/
theorem parse_primary_invariant (tokens : List TokRes) (node : ASTNode)
    (rest : List TokRes) (h : ASTNode.parse_primary tokens = .ok (node, rest)) :
    node.invariant = true := by
  unfold ASTNode.parse_primary at h
  split at h
  · simp only [ASTNode.make_leaf, Except.map] at h
    cases h
    rfl
  · cases h
  · cases h
  · cases h

/-- Both parsing functions only ever hand back trees satisfying the structural
invariants: primaries are `INT` leaves, and the climbing loop only wraps two
invariant-satisfying children under a new root. -/
theorem parse_functions_invariant (fuel : Nat) :
    (∀ tokens min_precedence node rest,
      ASTNode.parse_one_line_expression fuel tokens min_precedence = .ok (node, rest) →
      node.invariant = true) ∧
    (∀ left tokens min_precedence node rest,
      left.invariant = true →
      ASTNode.climb fuel left tokens min_precedence = .ok (node, rest) →
      node.invariant = true) := by
  induction fuel with
  | zero =>
    constructor
    · intro tokens min_precedence node rest h
      simp [ASTNode.parse_one_line_expression] at h
    · intro left tokens min_precedence node rest hl h
      simp [ASTNode.climb] at h
  | succ n ih =>
    obtain ⟨ih1, ih2⟩ := ih
    constructor
    · intro tokens min_precedence node rest h
      simp only [ASTNode.parse_one_line_expression] at h
      split at h
      · cases h
      · rename_i left rest0 hp
        exact ih2 left rest0 min_precedence node rest
          (parse_primary_invariant tokens left rest0 hp) h
    · intro left tokens min_precedence node rest hl h
      simp only [ASTNode.climb] at h
      split at h
      · rename_i op rest0
        split at h
        · exact (after_loop_ok left _ node rest h) ▸ hl
        · split at h
          · exact (after_loop_ok left _ node rest h) ▸ hl
          · split at h
            · cases h
            · rename_i right rest2 hr
              simp only [ASTNode.new] at h
              have hrinv := ih1 rest0 _ right rest2 hr
              have hinv : (ASTNode.mk op (some left) (some right)).invariant = true := by
                simp [ASTNode.invariant, hl, hrinv]
              exact ih2 _ rest2 min_precedence node rest hinv h
      · exact (after_loop_ok left _ node rest h) ▸ hl

/-- C1 (counterexample): parsing `[Int(1), Int(2), Int(3)]` does consume
`Int(2)` as if it were an operator.  `get_precedence` gives `Int` tokens
precedence 0 and the loop guard is `precedence < min_precedence`, which at the
top-level `min_precedence = 0` is `0 < 0 = false`, so the loop consumes the
`Int(2)` and builds an internal node whose operation is `Int(2)` with `Int(1)`
and `Int(3)` as children — contradicting the claim that such a lookahead is
never consumed. -/
theorem c1_counterexample :
    ASTNode.parse [.ok (.INT 1), .ok (.INT 2), .ok (.INT 3)] =
      .ok (.mk (.INT 2) (some (int_leaf 1)) (some (int_leaf 3))) := by
  decide

/-- C1 (amended): an `Ok` lookahead of `EndOfLine` or `EndOfFile` always stops
the climbing loop without being consumed; an `Ok` non-operator token of
precedence 0 (an `Int`) stops the loop without being consumed only when
`min_precedence ≥ 1` — at `min_precedence = 0` it is consumed as if it were an
operator, as exhibited on `[Int(1), Int(2), Int(3)]`. -/
theorem c1_nonoperator_lookahead :
    (∀ fuel left rest min_precedence,
      ASTNode.climb (fuel + 1) left (.ok .EndOfLine :: rest) min_precedence =
        .ok (left, .ok .EndOfLine :: rest)) ∧
    (∀ fuel left rest min_precedence,
      ASTNode.climb (fuel + 1) left (.ok .EndOfFile :: rest) min_precedence =
        .ok (left, .ok .EndOfFile :: rest)) ∧
    (∀ fuel left (n : Int) rest min_precedence, 1 ≤ min_precedence →
      ASTNode.climb (fuel + 1) left (.ok (.INT n) :: rest) min_precedence =
        .ok (left, .ok (.INT n) :: rest)) ∧
    ASTNode.parse [.ok (.INT 1), .ok (.INT 2), .ok (.INT 3)] =
      .ok (.mk (.INT 2) (some (int_leaf 1)) (some (int_leaf 3))) := by
  refine ⟨fun fuel left rest min_precedence => rfl,
    fun fuel left rest min_precedence => rfl, ?_, by decide⟩
  intro fuel left n rest min_precedence h
  have h0 : (0 : Nat) < min_precedence := h
  simp [ASTNode.climb, ASTNode.get_precedence, ASTNode.after_loop, h0]

/-- C1 (witness): the amended theorem applied at `min_precedence = 1` with an
`Int(2)` lookahead: the loop stops and the token stays in the stream. -/
theorem c1_witness :
    1 ≤ 1 ∧
    ASTNode.climb 1 (int_leaf 1) [.ok (.INT 2)] 1 = .ok (int_leaf 1, [.ok (.INT 2)]) :=
  ⟨Nat.le_refl 1, c1_nonoperator_lookahead.2.2.1 0 (int_leaf 1) 2 [] 1 (Nat.le_refl 1)⟩

/-- C2 (counterexample): `10 - 3 - 2` parses to the LEFT-grouped tree
`Minus(Minus(Int(10), Int(3)), Int(2))`, not the right-grouped
`Minus(Int(10), Minus(Int(3), Int(2)))` the claim asserts: recursing with
`precedence + 1` makes the inner call reject the second equal-precedence
`Minus`, which is then folded by the OUTER loop. -/
theorem c2_counterexample :
    ASTNode.parse tokens_10_3_2 =
      .ok (.mk .MINUS (some (.mk .MINUS (some (int_leaf 10)) (some (int_leaf 3))))
        (some (int_leaf 2))) ∧
    ASTNode.parse tokens_10_3_2 ≠
      .ok (.mk .MINUS (some (int_leaf 10))
        (some (.mk .MINUS (some (int_leaf 3)) (some (int_leaf 2))))) := by
  decide

/-- C2 (amended): equal-precedence operators group left-to-right: `10 - 3 - 2`
parses as `(10 - 3) - 2`, and the repository's own evaluator computes 5 on the
resulting tree (not 9). -/
theorem c2_left_grouping :
    ASTNode.parse tokens_10_3_2 =
      .ok (.mk .MINUS (some (.mk .MINUS (some (int_leaf 10)) (some (int_leaf 3))))
        (some (int_leaf 2))) ∧
    (ASTNode.mk .MINUS (some (.mk .MINUS (some (int_leaf 10)) (some (int_leaf 3))))
      (some (int_leaf 2))).test_evaluate = .ok 5 := by
  decide

/-- C8: every tree returned by `ASTNode::parse` satisfies both structural
invariants on every node (`ASTNode.invariant` is checked recursively through
the whole tree): a node with both children absent carries an `INT` operation,
and a node carrying one of the four binary operators has both children
present. -/
theorem c8_parse_invariants (tokens : List TokRes) (t : ASTNode)
    (h : ASTNode.parse tokens = .ok t) : t.invariant = true := by
  unfold ASTNode.parse at h
  split at h
  · cases h
  · cases hpoe : ASTNode.parse_one_line_expression (tokens.length + 1) tokens 0 with
    | error e => rw [hpoe] at h; cases h
    | ok p =>
      obtain ⟨node, rest⟩ := p
      rw [hpoe] at h
      cases h
      exact (parse_functions_invariant _).1 tokens 0 t rest hpoe

/-- C8 (witness): the invariant theorem applied to the parse of `2 + 3 * 4`. -/
theorem c8_witness :
    ASTNode.parse [.ok (.INT 2), .ok .PLUS, .ok (.INT 3), .ok .ASTERISK, .ok (.INT 4)] =
      .ok (.mk .PLUS (some (int_leaf 2))
        (some (.mk .ASTERISK (some (int_leaf 3)) (some (int_leaf 4))))) ∧
    (ASTNode.mk .PLUS (some (int_leaf 2))
      (some (.mk .ASTERISK (some (int_leaf 3)) (some (int_leaf 4))))).invariant = true :=
  ⟨by decide, c8_parse_invariants
    [.ok (.INT 2), .ok .PLUS, .ok (.INT 3), .ok .ASTERISK, .ok (.INT 4)]
    (.mk .PLUS (some (int_leaf 2))
      (some (.mk .ASTERISK (some (int_leaf 3)) (some (int_leaf 4)))))
    (by decide)⟩

/-- A successful `Vec::pop` shortens the vector by exactly one element. -/
theorem vec_pop_length {α : Type} (l : List α) :
    ∀ p : α × List α, vec_pop l = some p → p.2.length + 1 = l.length := by
  unfold vec_pop
  cases hl : l.getLast? with
  | none => intro p h; cases h
  | some b =>
    intro p h
    cases h
    have hne : l ≠ [] := by
      intro he
      rw [he] at hl
      cases hl
    have hpos : 0 < l.length := List.length_pos.mpr hne
    simp [List.length_dropLast]
    omega

/-- A successful allocation removes exactly one register from the pool. -/
theorem allocate_register_length (s : ARM64Writer) :
    ∀ p : RegisterList × ARM64Writer, s.allocate_register = .ok p →
    p.2.available_registers.length + 1 = s.available_registers.length := by
  unfold ARM64Writer.allocate_register
  cases hp : vec_pop s.available_registers with
  | none => intro p h; cases h
  | some q =>
    obtain ⟨a, rest⟩ := q
    intro p h
    cases h
    exact vec_pop_length s.available_registers (a, rest) hp

/-- Writing lines does not touch the register pool. -/
theorem foldl_writeln_avail (lines : List String) (s : ARM64Writer) :
    (lines.foldl ARM64Writer.writeln s).available_registers = s.available_registers := by
  induction lines generalizing s with
  | nil => rfl
  | cons a ls ih => simp [List.foldl_cons, ih, ARM64Writer.writeln]

/-- A successful `add_registers` nets one extra register in the pool (one
allocation, two frees). -/
theorem add_registers_length (s : ARM64Writer) (r1 r2 : RegisterList) :
    ∀ p : RegisterList × ARM64Writer, s.add_registers r1 r2 = .ok p →
    p.2.available_registers.length = s.available_registers.length + 1 := by
  unfold ARM64Writer.add_registers
  cases ha : s.allocate_register with
  | error e => intro p h; cases h
  | ok q =>
    obtain ⟨reg, s1⟩ := q
    intro p h
    cases h
    have := allocate_register_length s (reg, s1) ha
    dsimp only at this
    simp [ARM64Writer.free_register, ARM64Writer.writeln]
    omega

/-- A successful `subtract_registers` nets one extra register in the pool (one
allocation, two frees). -/
theorem subtract_registers_length (s : ARM64Writer) (r1 r2 : RegisterList) :
    ∀ p : RegisterList × ARM64Writer, s.subtract_registers r1 r2 = .ok p →
    p.2.available_registers.length = s.available_registers.length + 1 := by
  unfold ARM64Writer.subtract_registers
  cases ha : s.allocate_register with
  | error e => intro p h; cases h
  | ok q =>
    obtain ⟨reg, s1⟩ := q
    intro p h
    cases h
    have := allocate_register_length s (reg, s1) ha
    dsimp only at this
    simp [ARM64Writer.free_register, ARM64Writer.writeln]
    omega

/-- A successful `multiply_registers` nets one extra register in the pool (one
allocation, two frees). -/
theorem multiply_registers_length (s : ARM64Writer) (r1 r2 : RegisterList) :
    ∀ p : RegisterList × ARM64Writer, s.multiply_registers r1 r2 = .ok p →
    p.2.available_registers.length = s.available_registers.length + 1 := by
  unfold ARM64Writer.multiply_registers
  cases ha : s.allocate_register with
  | error e => intro p h; cases h
  | ok q =>
    obtain ⟨reg, s1⟩ := q
    intro p h
    cases h
    have := allocate_register_length s (reg, s1) ha
    dsimp only at this
    simp [ARM64Writer.free_register, ARM64Writer.writeln]
    omega

/-- A successful `divide_registers` nets one extra register in the pool (one
allocation, two frees). -/
theorem divide_registers_length (s : ARM64Writer) (r1 r2 : RegisterList) :
    ∀ p : RegisterList × ARM64Writer, s.divide_registers r1 r2 = .ok p →
    p.2.available_registers.length = s.available_registers.length + 1 := by
  unfold ARM64Writer.divide_registers
  cases ha : s.allocate_register with
  | error e => intro p h; cases h
  | ok q =>
    obtain ⟨reg, s1⟩ := q
    intro p h
    cases h
    have := allocate_register_length s (reg, s1) ha
    dsimp only at this
    simp [ARM64Writer.free_register, ARM64Writer.writeln]
    omega

/-- Any successful walk of `generate_assembly_from_ast` consumes exactly one
register net: the register holding the subtree result. -/
theorem generate_avail_length (t : ASTNode) :
    ∀ (s : ARM64Writer) (p : RegisterList × ARM64Writer),
    s.generate_assembly_from_ast t = .ok p →
    p.2.available_registers.length + 1 = s.available_registers.length := by
  induction t using ASTNode.ind with
  | h op l r ihl ihr =>
    intro s p hgen
    cases op with
    | INT n =>
      simp only [ARM64Writer.generate_assembly_from_ast] at hgen
      unfold ARM64Writer.load_register at hgen
      cases ha : s.allocate_register with
      | error e => rw [ha] at hgen; cases hgen
      | ok q =>
        obtain ⟨reg, s1⟩ := q
        rw [ha] at hgen
        cases hgen
        have := allocate_register_length s (reg, s1) ha
        dsimp only at this
        simp [ARM64Writer.writeln]
        omega
    | EndOfLine => cases l <;> cases r <;> simp [ARM64Writer.generate_assembly_from_ast] at hgen
    | EndOfFile => cases l <;> cases r <;> simp [ARM64Writer.generate_assembly_from_ast] at hgen
    | PLUS =>
      cases l with
      | none => simp [ARM64Writer.generate_assembly_from_ast] at hgen
      | some lt =>
        cases r with
        | none =>
          simp only [ARM64Writer.generate_assembly_from_ast] at hgen
          split at hgen <;> cases hgen
        | some rt =>
          simp only [ARM64Writer.generate_assembly_from_ast] at hgen
          split at hgen
          · cases hgen
          · rename_i left_reg s1 hgl
            split at hgen
            · cases hgen
            · rename_i right_reg s2 hgr
              have h1 := ihl lt rfl s (left_reg, s1) hgl
              have h2 := ihr rt rfl s1 (right_reg, s2) hgr
              have h3 := add_registers_length s2 left_reg right_reg p hgen
              dsimp only at h1 h2 h3
              omega
    | MINUS =>
      cases l with
      | none => simp [ARM64Writer.generate_assembly_from_ast] at hgen
      | some lt =>
        cases r with
        | none =>
          simp only [ARM64Writer.generate_assembly_from_ast] at hgen
          split at hgen <;> cases hgen
        | some rt =>
          simp only [ARM64Writer.generate_assembly_from_ast] at hgen
          split at hgen
          · cases hgen
          · rename_i left_reg s1 hgl
            split at hgen
            · cases hgen
            · rename_i right_reg s2 hgr
              have h1 := ihl lt rfl s (left_reg, s1) hgl
              have h2 := ihr rt rfl s1 (right_reg, s2) hgr
              have h3 := subtract_registers_length s2 left_reg right_reg p hgen
              dsimp only at h1 h2 h3
              omega
    | ASTERISK =>
      cases l with
      | none => simp [ARM64Writer.generate_assembly_from_ast] at hgen
      | some lt =>
        cases r with
        | none =>
          simp only [ARM64Writer.generate_assembly_from_ast] at hgen
          split at hgen <;> cases hgen
        | some rt =>
          simp only [ARM64Writer.generate_assembly_from_ast] at hgen
          split at hgen
          · cases hgen
          · rename_i left_reg s1 hgl
            split at hgen
            · cases hgen
            · rename_i right_reg s2 hgr
              have h1 := ihl lt rfl s (left_reg, s1) hgl
              have h2 := ihr rt rfl s1 (right_reg, s2) hgr
              have h3 := multiply_registers_length s2 left_reg right_reg p hgen
              dsimp only at h1 h2 h3
              omega
    | SLASH =>
      cases l with
      | none => simp [ARM64Writer.generate_assembly_from_ast] at hgen
      | some lt =>
        cases r with
        | none =>
          simp only [ARM64Writer.generate_assembly_from_ast] at hgen
          split at hgen <;> cases hgen
        | some rt =>
          simp only [ARM64Writer.generate_assembly_from_ast] at hgen
          split at hgen
          · cases hgen
          · rename_i left_reg s1 hgl
            split at hgen
            · cases hgen
            · rename_i right_reg s2 hgr
              have h1 := ihl lt rfl s (left_reg, s1) hgl
              have h2 := ihr rt rfl s1 (right_reg, s2) hgr
              have h3 := divide_registers_length s2 left_reg right_reg p hgen
              dsimp only at h1 h2 h3
              omega

/-- C7: after a successful `compile_ast` of a well-formed expression starting
from a fresh writer, the register pool is full again: the body walk nets one
live register, `print_register` touches none, and `compile_ast` frees the
result register, restoring the initial count of five. -/
theorem c7_register_round_trip (t : ASTNode) (s' : ARM64Writer)
    (_h1 : well_formed t = true)
    (h2 : ARM64Writer.new.compile_ast t = .ok s') :
    s'.available_registers.length = 5 := by
  unfold ARM64Writer.compile_ast at h2
  split at h2
  · cases h2
  · rename_i result_reg s1 hg
    simp only [ARM64Writer.print_register] at h2
    cases h2
    have hlen := generate_avail_length t (ARM64Writer.new.write_assembly_headers)
      (result_reg, s1) hg
    dsimp only at hlen
    have hh : (ARM64Writer.new.write_assembly_headers).available_registers.length = 5 := by
      rw [ARM64Writer.write_assembly_headers, foldl_writeln_avail]
      rfl
    simp [ARM64Writer.flush, ARM64Writer.write_assembly_headers, foldl_writeln_avail,
      ARM64Writer.free_register]
    omega

/-- C7 (witness): the round-trip theorem applied to the compile of
`(5 + 3) * 2`, whose final state has all five registers available. -/
theorem c7_witness :
    well_formed paren_tree = true ∧
    ARM64Writer.new.compile_ast paren_tree =
      .ok { available_registers := [.R4, .R3, .R2, .R1, .R0],
            out := header_lines ++
              ["\tmov x0, #5\t// x0=5", "\tmov x1, #3\t// x1=3", "    add x2, x0, x1",
               "\tmov x1, #2\t// x1=2", "    mul x0, x2, x1"] ++
              print_lines ++ header_lines,
            flushed := true } ∧
    ({ available_registers := [.R4, .R3, .R2, .R1, .R0],
       out := header_lines ++
         ["\tmov x0, #5\t// x0=5", "\tmov x1, #3\t// x1=3", "    add x2, x0, x1",
          "\tmov x1, #2\t// x1=2", "    mul x0, x2, x1"] ++
         print_lines ++ header_lines,
       flushed := true } : ARM64Writer).available_registers.length = 5 :=
  ⟨by decide, by decide,
    c7_register_round_trip paren_tree
      { available_registers := [.R4, .R3, .R2, .R1, .R0],
        out := header_lines ++
          ["\tmov x0, #5\t// x0=5", "\tmov x1, #3\t// x1=3", "    add x2, x0, x1",
           "\tmov x1, #2\t// x1=2", "    mul x0, x2, x1"] ++
          print_lines ++ header_lines,
        flushed := true }
      (by decide) (by decide)⟩

/-- C3 (code evaluation at the failing input): compiling the single leaf
`Int(42)` succeeds and flushes, but the final instruction block of the output
is a second copy of the program prologue (`write_assembly_headers` is called
again where the epilogue belongs, emitting a duplicate `_main:` label), and no
line of the exit block (`write_exit_syscall`) is ever written: neither the
zero-exit-status line, the exit-syscall-number line, nor the supervisor-call
line of the exit sequence appears anywhere in the output. -/
theorem c3_compile_ast_ends_with_headers :
    ARM64Writer.new.compile_ast (int_leaf 42) =
      .ok { available_registers := [.R4, .R3, .R2, .R1, .R0],
            out := header_lines ++ ["\tmov x0, #42\t// x0=42"] ++ print_lines ++ header_lines,
            flushed := true } ∧
    "    mov x0, #0           // Exit status 0" ∉
      (header_lines ++ ["\tmov x0, #42\t// x0=42"] ++ print_lines ++ header_lines) ∧
    "    mov x16, #1          // Exit syscall" ∉
      (header_lines ++ ["\tmov x0, #42\t// x0=42"] ++ print_lines ++ header_lines) ∧
    "    svc #0x80            // Make system call" ∉
      (header_lines ++ ["\tmov x0, #42\t// x0=42"] ++ print_lines ++ header_lines) ∧
    (header_lines ++ ["\tmov x0, #42\t// x0=42"] ++ print_lines ++ header_lines).drop 12 =
      header_lines := by
  refine ⟨by decide, by decide, by decide, by decide, by decide⟩

/-- C4 (counterexample): `allocate_register` on an empty pool is the modelled
panic (`expect("No available registers")`), not a returned `RegisterExhausted`
error — no such error value exists in the code — and the five-leaf expression
`1 + (2 + (3 + (4 + 5)))`, which needs more simultaneously-live registers than
the pool holds, drives code generation into that same panic. -/
theorem c4_counterexample :
    (ARM64Writer.mk [] [] true).allocate_register =
      .error (.panic ("No available registers")) ∧
    ARM64Writer.new.generate_assembly_from_ast deep_right_tree =
      .error (.panic ("No available registers")) := by
  refine ⟨by decide, by decide⟩

/-- C4 (amended): popping an empty register pool panics with
`"No available registers"` (a crash, not a reported error), and an expression
demanding more than five simultaneously-live registers reaches exactly that
panic. -/
theorem c4_pool_exhaustion_panics :
    (∀ s : ARM64Writer, s.available_registers = [] →
      s.allocate_register = .error (.panic ("No available registers"))) ∧
    ARM64Writer.new.generate_assembly_from_ast deep_right_tree =
      .error (.panic ("No available registers")) := by
  refine ⟨?_, by decide⟩
  intro s hs
  unfold ARM64Writer.allocate_register vec_pop
  rw [hs]
  rfl

/-- C4 (witness): the amended theorem applied to a writer whose pool is
empty. -/
theorem c4_witness :
    (ARM64Writer.mk [] [] true).available_registers = [] ∧
    (ARM64Writer.mk [] [] true).allocate_register =
      .error (.panic ("No available registers")) :=
  ⟨rfl, c4_pool_exhaustion_panics.1 (ARM64Writer.mk [] [] true) rfl⟩

/-- C5 (counterexample): on the freshly initialized pool
`vec![R4, R3, R2, R1, R0]`, `Vec::pop` removes the back element, so the first
allocation returns `R0` — the lowest-indexed register — not `R4` as the claim
states. -/
theorem c5_counterexample :
    ARM64Writer.new.allocate_register =
      .ok (.R0, { available_registers := [.R4, .R3, .R2, .R1], out := [], flushed := true }) ∧
    RegisterList.R0 ≠ RegisterList.R4 := by
  refine ⟨by decide, by decide⟩

/-- C5 (amended): allocation is last-in-first-out — the most recently freed
register is always reused first — the first allocation from a fresh pool
returns `R0`, and only after `free_all_registers` (which resets the pool as
`vec![R0, ..., R4]`) does the first allocation return `R4`. -/
theorem c5_lifo_allocation :
    (∀ (s : ARM64Writer) (r : RegisterList),
      (s.free_register r).allocate_register = .ok (r, s)) ∧
    ARM64Writer.new.allocate_register =
      .ok (.R0, { available_registers := [.R4, .R3, .R2, .R1], out := [], flushed := true }) ∧
    (∀ s : ARM64Writer, (s.free_all_registers).allocate_register =
      .ok (.R4, { s with available_registers := [.R0, .R1, .R2, .R3] })) := by
  refine ⟨?_, by decide, fun s => rfl⟩
  intro s r
  have h1 : (s.free_register r).available_registers.getLast? = some r := by
    simp [ARM64Writer.free_register, List.getLast?_concat]
  unfold ARM64Writer.allocate_register vec_pop
  rw [h1]
  simp [ARM64Writer.free_register, List.dropLast_concat]

/-- C6 (counterexample): generating `1 + 2` from a fresh writer ends in result
register `R2`, whose name is `x2`, yet no line of the print block emitted by
`compile_ast` contains `x2`: the block is fixed text that never references the
result register. -/
theorem c6_counterexample :
    ARM64Writer.new.generate_assembly_from_ast plus_1_2 =
      .ok (.R2, { available_registers := [.R4, .R3, .R0, .R1],
                  out := ["\tmov x0, #1\t// x0=1", "\tmov x1, #2\t// x1=2",
                          "    add x2, x0, x1"],
                  flushed := false }) ∧
    ARM64Writer.new.compile_ast plus_1_2 =
      .ok { available_registers := [.R4, .R3, .R0, .R1, .R2],
            out := header_lines ++
              ["\tmov x0, #1\t// x0=1", "\tmov x1, #2\t// x1=2", "    add x2, x0, x1"] ++
              print_lines ++ header_lines,
            flushed := true } ∧
    ARM64Writer.format_register .R2 = "x2" ∧
    print_lines.all (fun line => !(occurs_in ("x2").toList line.toList)) = true := by
  refine ⟨by decide, by decide, by decide, by decide⟩

/-- C6 (amended): `print_register` writes the same four fixed lines whatever
register it is given and returns that register unchanged; the block mentions
only `x0` and `x16`, and in particular not `x2`, the result-register name of
the successful compile of `1 + 2`. -/
theorem c6_print_block_fixed :
    (∀ (s : ARM64Writer) (register : RegisterList),
      s.print_register register =
        .ok (register, { available_registers := s.available_registers,
                         out := s.out ++ print_lines, flushed := false })) ∧
    ARM64Writer.new.generate_assembly_from_ast plus_1_2 =
      .ok (.R2, { available_registers := [.R4, .R3, .R0, .R1],
                  out := ["\tmov x0, #1\t// x0=1", "\tmov x1, #2\t// x1=2",
                          "    add x2, x0, x1"],
                  flushed := false }) ∧
    print_lines.all (fun line => !(occurs_in ("x2").toList line.toList)) = true := by
  refine ⟨?_, by decide, by decide⟩
  intro s register
  simp [ARM64Writer.print_register, print_lines, ARM64Writer.writeln, List.append_assoc]

/-- C10: an `INT` node generates exactly one load-immediate line for its value
and never visits its children: with any children attached, code generation
coincides with the childless leaf, and from a fresh writer both generation and
the full `compile_ast` succeed, emitting only the single `mov` for `n` as the
expression body and silently discarding both subtrees. -/
theorem c10_int_ignores_children :
    (∀ (n : Int) (l r : ASTNode) (s : ARM64Writer),
      s.generate_assembly_from_ast (.mk (.INT n) (some l) (some r)) =
        s.generate_assembly_from_ast (.mk (.INT n) none none)) ∧
    (∀ (n : Int) (l r : ASTNode),
      ARM64Writer.new.generate_assembly_from_ast (.mk (.INT n) (some l) (some r)) =
        .ok (.R0, { available_registers := [.R4, .R3, .R2, .R1],
                    out := [mov_line ("x0") n], flushed := false })) ∧
    (∀ (n : Int) (l r : ASTNode),
      ARM64Writer.new.compile_ast (.mk (.INT n) (some l) (some r)) =
        .ok { available_registers := [.R4, .R3, .R2, .R1, .R0],
              out := header_lines ++ [mov_line ("x0") n] ++ print_lines ++ header_lines,
              flushed := true }) :=
  ⟨fun _ _ _ _ => rfl, fun _ _ _ => rfl, fun _ _ _ => rfl⟩

/-- C9: when the scanning loop reaches a digit opening a maximal run whose
value exceeds `i32::MAX`, it emits exactly one `TokenError` carrying the given
line number and the literal's starting (zero-based) column, consumes the whole
digit run, and resumes scanning at the first character after the literal; on
the concrete line `"1 99999999999+2"` the oversized literal starting at
column 2 becomes an error while the tokens before and after it are still
produced. -/
theorem c9_scan_overflow :
    (∀ (fuel line_num column : Nat) (ch : Char) (rest : List (Nat × Char)),
      ch.isDigit = true →
      2147483647 <
        digits_value (ch :: (rest.takeWhile (fun p => p.2.isDigit)).map (fun p => p.2)) →
      scan_line_loop (fuel + 1) line_num ((column, ch) :: rest) =
        .error ⟨line_num, column, ch⟩ ::
          scan_line_loop fuel line_num (rest.dropWhile (fun p => p.2.isDigit))) ∧
    scan_line ("1 99999999999+2") 1 =
      [.ok (.INT 1), .error ⟨1, 2, '9'⟩, .ok .PLUS, .ok (.INT 2)] := by
  refine ⟨?_, by decide⟩
  intro fuel line_num column ch rest hd ho
  have hplus : ¬ ch = '+' := by intro he; subst he; exact absurd hd (by decide)
  have hminus : ¬ ch = '-' := by intro he; subst he; exact absurd hd (by decide)
  have hast : ¬ ch = '*' := by intro he; subst he; exact absurd hd (by decide)
  have hslash : ¬ ch = '/' := by intro he; subst he; exact absurd hd (by decide)
  have hw : ch.isWhitespace = false := by
    cases hwt : ch.isWhitespace with
    | false => rfl
    | true =>
      simp only [Char.isWhitespace, Bool.or_eq_true, decide_eq_true_eq] at hwt
      rcases hwt with ((he | he) | he) | he <;> (subst he; exact absurd hd (by decide))
  simp only [scan_line_loop, scan_token]
  simp [hw, hplus, hminus, hast, hslash, hd, Nat.not_le.mpr ho]

/-- C9 (witness): the overflow theorem applied to the eleven-nine literal
`99999999999` at column 0 of line 1. -/
theorem c9_witness :
    ('9').isDigit = true ∧
    2147483647 <
      digits_value ('9' ::
        (([((1 : Nat), '9'), (2, '9'), (3, '9'), (4, '9'), (5, '9'), (6, '9'), (7, '9'),
           (8, '9'), (9, '9'), (10, '9')]).takeWhile
            (fun p => p.2.isDigit)).map (fun p => p.2)) ∧
    scan_line_loop (0 + 1) 1
        ((0, '9') :: [((1 : Nat), '9'), (2, '9'), (3, '9'), (4, '9'), (5, '9'), (6, '9'),
          (7, '9'), (8, '9'), (9, '9'), (10, '9')]) =
      .error ⟨1, 0, '9'⟩ ::
        scan_line_loop 0 1
          (([((1 : Nat), '9'), (2, '9'), (3, '9'), (4, '9'), (5, '9'), (6, '9'), (7, '9'),
             (8, '9'), (9, '9'), (10, '9')]).dropWhile (fun p => p.2.isDigit)) :=
  ⟨by decide, by decide,
    c9_scan_overflow.1 0 1 0 '9'
      [((1 : Nat), '9'), (2, '9'), (3, '9'), (4, '9'), (5, '9'), (6, '9'), (7, '9'),
       (8, '9'), (9, '9'), (10, '9')] (by decide) (by decide)⟩
